import Mathlib

/-!
# wraperr: error annotation over xerrors

A shallow embedding of `wraperr.go` (package `wraperr`).

Go values are embedded as follows.

* A value of the Go interface type `error` is a term of the inductive type
  `error`: the nil interface, a foreign error (one whose type is defined
  outside the package), or a pointer to one of the two annotation structs
  of the package, `withStack` and `withMessage`.  The struct field `err`
  has the interface type `error` too, so it is again a term of `error`
  and may be `nil` as far as the type goes.
* A method call that panics in Go (a call through a nil interface, or a
  foreign `Error()` that panics) returns `none`.
* What a foreign `Error()` returns may depend on when it is called: the
  moment of the call is a `World`.
* The goroutine call stack is passed explicitly to the functions that read
  it (`xerrors.Caller`).
* `fmt.Sprintf` is passed to the functions that call it.
* A printer (`xerrors.Printer`) is passed to the functions that write to it, as
  the operations on a printer state; the render walk `xerrors.FormatError` is
  modelled from the specification of the package.
* The operator `==` on interface values follows the Go specification; what it
  reads of foreign values and of pointers is passed as a `Runtime`.
-/

set_option autoImplicit false

namespace Wraperr

/-! ## Collaborators outside the package -/

/-- The program state at the moment a method is called. -/
abbrev World := Nat

/-- One entry of a goroutine call stack: a function and the position it has reached. -/
structure Loc where
  function : String
  file : String
  line : Nat
  deriving DecidableEq, Repr

/-- Modelled from the spec: the location record `xerrors.Frame` returned by the
frame-capture primitive (section 2, FrameCapture: given a number of call levels
to skip, returns an opaque location record).  The record keeps what the
primitive was given: the number of levels to skip and the call stack at the
call, innermost entry first, starting with the function that calls
`xerrors.Caller`. -/
structure Frame where
  skip : Nat
  stack : List Loc
  deriving DecidableEq, Repr

/-- Modelled from the spec: `xerrors.Caller(skip)`, the frame-capture primitive
(section 6: `capture(skipLevels) -> frame`).  `stack` is the call stack at the
call. -/
def Caller (stack : List Loc) (skip : Nat) : Frame :=
  { skip := skip, stack := stack }

/-- Modelled from the spec: the location a frame designates.  `Caller(0)` designates
the function that called `Caller`, `Caller(1)` the caller of that function. -/
def Frame.location (fr : Frame) : Option Loc :=
  fr.stack[fr.skip]?

/-- An argument of a formatting call (`interface{}`). -/
inductive Arg where
  | int (n : Int)
  | str (s : String)
  deriving DecidableEq, Repr

/-- The type of `fmt.Sprintf`: format string and arguments to text.  It never panics. -/
abbrev FormatFunc := String → List Arg → String

/-- The text of an argument under the verb `%v`. -/
def Arg.value : Arg → String
  | Arg.int n => toString n
  | Arg.str s => s

/-- The Go type name of an argument. -/
def Arg.typeName : Arg → String
  | Arg.int _ => "int"
  | Arg.str _ => "string"

/-- The text of one argument under the verb `c`; a verb that does not fit the
argument gives `%!c(type=value)`. -/
def Arg.verb (c : Char) (a : Arg) : String :=
  match c, a with
  | 'd', Arg.int n => toString n
  | 's', Arg.str s => s
  | 'v', a => a.value
  | c, a => "%!" ++ c.toString ++ "(" ++ a.typeName ++ "=" ++ a.value ++ ")"

/-- The text for arguments left over at the end of the format. -/
def Arg.extra : List Arg → String
  | [] => ""
  | args => "%!(EXTRA " ++ ", ".intercalate (args.map fun a => a.typeName ++ "=" ++ a.value) ++ ")"

/-- The scan of the format, character by character. -/
def sprintfChars : List Char → List Arg → String
  | [], args => Arg.extra args
  | '%' :: [], args => "%!(NOVERB)" ++ Arg.extra args
  | '%' :: '%' :: rest, args => "%" ++ sprintfChars rest args
  | '%' :: c :: rest, [] => "%!" ++ c.toString ++ "(MISSING)" ++ sprintfChars rest []
  | '%' :: c :: rest, a :: args => a.verb c ++ sprintfChars rest args
  | c :: rest, args => c.toString ++ sprintfChars rest args

/-- Modelled from the spec: `fmt.Sprintf`, the formatting collaborator (section 4.3:
standard positional-verb formatting, e.g. `%d`, `%s`).  The model covers the
verbs `d`, `s` and `v` and the escape `%%`, without flags, width or precision.
The builders take their formatter as an argument and the theorems hold for
every formatter; this one is an instance. -/
def Sprintf : FormatFunc :=
  fun format args => sprintfChars format.data args

/-- An error whose type is defined outside the package.  `tag` stands for its
identity (dynamic type and value); `msg` is its `Error()` method, `none` where
the call panics. -/
structure Foreign where
  tag : Nat
  msg : World → Option String

/-! ## The data model -/

/-- A value of the Go interface type `error`.

* `nil`: the nil interface;
* `leaf f`: a foreign error that does not implement `xerrors.Wrapper`;
* `wrapper f inner`: a foreign error that implements `xerrors.Wrapper`, whose
  `Unwrap()` returns `inner`;
* `withStack err frame`: a `*withStack` (wraperr.go, lines 23-26);
* `withMessage err msg`: a `*withMessage` (wraperr.go, lines 102-105).

Being inductive, a value has a finite chain of `Unwrap()` results. -/
inductive error where
  | nil
  | leaf (f : Foreign)
  | wrapper (f : Foreign) (inner : error)
  | withStack (err : error) (frame : Frame)
  | withMessage (err : error) (msg : String)

namespace error

/-- The test `err == nil` on an interface value. -/
def isNil : error → Bool
  | nil => true
  | _ => false

/-- The method `Error()`.
`withStack.Error` (line 28): `return w.err.Error()`;
`withMessage.Error` (line 107): `return w.msg + ": " + w.err.Error()`.
A call through the nil interface panics. -/
def Error : error → World → Option String
  | nil, _ => none
  | leaf f, w => f.msg w
  | wrapper f _, w => f.msg w
  | withStack err _, w => err.Error w
  | withMessage err msg, w =>
    match err.Error w with
    | none => none
    | some s => some (msg ++ ": " ++ s)

/-- The type assertion `err.(xerrors.Wrapper)` followed by `Unwrap()`: `none` when
the assertion fails (a nil interface, or a type without the method).
`withStack.Unwrap` (line 40) and `withMessage.Unwrap` (line 116): `return w.err`. -/
def Unwrap : error → Option error
  | nil => none
  | leaf _ => none
  | wrapper _ inner => some inner
  | withStack err _ => some err
  | withMessage err _ => some err

/-- The field `frame` of a `*withStack`; `none` for any other value. -/
def frame? : error → Option Frame
  | withStack _ frame => some frame
  | _ => none

end error

/-! ## The builders -/

/-- The position of the call `xerrors.Caller(1)` in `WithStack` (line 17). -/
def WithStack.site : Loc := { function := "wraperr.WithStack", file := "wraperr.go", line := 17 }

/-- The position of the call `xerrors.Caller(1)` in `Wrap` (line 57). -/
def Wrap.site : Loc := { function := "wraperr.Wrap", file := "wraperr.go", line := 57 }

/-- The position of the call `xerrors.Caller(1)` in `Wrapf` (line 74). -/
def Wrapf.site : Loc := { function := "wraperr.Wrapf", file := "wraperr.go", line := 74 }

/-- `WithStack` (lines 13-21).  `stack` is the call stack of the caller, the call
site first. -/
def WithStack (stack : List Loc) (err : error) : error :=
  if !err.isNil then
    error.withStack err (Caller (WithStack.site :: stack) 1)
  else
    err

/-- `Wrap` (lines 47-59). -/
def Wrap (stack : List Loc) (err : error) (msg : String) : error :=
  if err.isNil then
    error.nil
  else
    let err := error.withMessage err msg
    error.withStack err (Caller (Wrap.site :: stack) 1)

/-- `Wrapf` (lines 64-76).  `sprintf` is `fmt.Sprintf`. -/
def Wrapf (sprintf : FormatFunc) (stack : List Loc) (err : error) (format : String)
    (args : List Arg) : error :=
  if err.isNil then
    error.nil
  else
    let err := error.withMessage err (sprintf format args)
    error.withStack err (Caller (Wrapf.site :: stack) 1)

/-- `WithMessage` (lines 80-88). -/
def WithMessage (err : error) (message : String) : error :=
  if err.isNil then
    error.nil
  else
    error.withMessage err message

/-- `WithMessagef` (lines 92-100).  `sprintf` is `fmt.Sprintf`. -/
def WithMessagef (sprintf : FormatFunc) (err : error) (format : String) (args : List Arg) : error :=
  if err.isNil then
    error.nil
  else
    error.withMessage err (sprintf format args)

/-! ## Cause -/

/-- `Cause` (lines 127-139).  The loop replaces `err` by `err.Unwrap()` as long as
`err` is not nil and implements `xerrors.Wrapper`; the recursion follows the
same chain. -/
def Cause : error → error
  | error.nil => error.nil
  | error.leaf f => error.leaf f
  | error.wrapper _ inner => Cause inner
  | error.withStack err _ => Cause err
  | error.withMessage err _ => Cause err

/-- The error `io.EOF`. -/
def EOF : error := error.leaf { tag := 0, msg := fun _ => some "EOF" }

/-! ## Chains of annotations -/

/-- One call of a builder, without the error it is applied to. -/
inductive BuilderCall where
  | withStack (stack : List Loc)
  | withMessage (message : String)
  | withMessagef (format : String) (args : List Arg)
  | wrap (stack : List Loc) (msg : String)
  | wrapf (stack : List Loc) (format : String) (args : List Arg)

/-- The call of the builder on `err`. -/
def BuilderCall.apply (sprintf : FormatFunc) (a : BuilderCall) (err : error) : error :=
  match a with
  | BuilderCall.withStack stack => WithStack stack err
  | BuilderCall.withMessage message => WithMessage err message
  | BuilderCall.withMessagef format args => WithMessagef sprintf err format args
  | BuilderCall.wrap stack msg => Wrap stack err msg
  | BuilderCall.wrapf stack format args => Wrapf sprintf stack err format args

/-- The text a builder call attaches, if it attaches one. -/
def BuilderCall.text (sprintf : FormatFunc) : BuilderCall → Option String
  | BuilderCall.withStack _ => none
  | BuilderCall.withMessage message => some message
  | BuilderCall.withMessagef format args => some (sprintf format args)
  | BuilderCall.wrap _ msg => some msg
  | BuilderCall.wrapf _ format args => some (sprintf format args)

/-- The builder calls `as` applied to `root` one after the other, the first of the
list first (so the last of the list is the outermost annotation). -/
def annotate (sprintf : FormatFunc) (root : error) (as : List BuilderCall) : error :=
  as.foldl (fun err a => a.apply sprintf err) root

/-- What a builder call puts in front of the message: its text followed by `": "`,
or nothing. -/
def BuilderCall.lead (sprintf : FormatFunc) (a : BuilderCall) : String :=
  match a.text sprintf with
  | none => ""
  | some t => t ++ ": "

/-- The texts attached by the calls `as`, the outermost first, each followed by
`": "`, in one string. -/
def chainText (sprintf : FormatFunc) (as : List BuilderCall) : String :=
  (as.reverse.filterMap (BuilderCall.text sprintf)).foldr (fun t rest => t ++ ": " ++ rest) ""

/-- The chain without its `*withStack` values: every `withStack` met while
unwrapping the annotations of the package is dropped. -/
def stripStack : error → error
  | error.nil => error.nil
  | error.leaf f => error.leaf f
  | error.wrapper f inner => error.wrapper f inner
  | error.withStack err _ => stripStack err
  | error.withMessage err msg => error.withMessage (stripStack err) msg

/-- Whether every `*withStack` and `*withMessage` met while unwrapping the
annotations of the package holds a non-nil `err`. -/
def innerPresent : error → Bool
  | error.nil => true
  | error.leaf _ => true
  | error.wrapper _ _ => true
  | error.withStack err _ => !err.isNil && innerPresent err
  | error.withMessage err _ => !err.isNil && innerPresent err

/-- A call site in a client program, used as the call stack of examples. -/
def mainSite : Loc := { function := "main.main", file := "main.go", line := 10 }

/-- A second call site in a client program. -/
def readSite : Loc := { function := "main.read", file := "main.go", line := 42 }

/-- A foreign error whose message changes with the moment of the call. -/
def ticking : error :=
  error.leaf { tag := 1, msg := fun w => some (if w = 0 then "starting" else "running") }

/-! ## The loop of Cause and the unwrap chain -/

/-- The statement `for err != nil { ... }` of `Cause` (lines 131-137), allowed at
most `fuel` executions of its body.  `none`: the loop is still running after
`fuel` executions. -/
def Cause.loop : Nat → error → Option error
  | 0, err => if err.isNil then some err else none
  | fuel + 1, err =>
    if err.isNil then
      some err
    else
      match err.Unwrap with
      | none => some err
      | some inner => Cause.loop fuel inner

/-- The body of `Cause` (lines 128-138) with the loop as written: the test
`err == nil`, the loop, `return err`. -/
def Cause.run (fuel : Nat) (err : error) : Option error :=
  if err.isNil then some error.nil else Cause.loop fuel err

/-- The sequence `err, err.Unwrap(), err.Unwrap().Unwrap(), ...`, continued as
long as the current error is not nil and implements `xerrors.Wrapper`. -/
def unwrapChain : error → List error
  | error.nil => [error.nil]
  | error.leaf f => [error.leaf f]
  | error.wrapper f inner => error.wrapper f inner :: unwrapChain inner
  | error.withStack err frame => error.withStack err frame :: unwrapChain err
  | error.withMessage err msg => error.withMessage err msg :: unwrapChain err

/-- The foreign value held by `EOF`. -/
def EOF.foreign : Foreign := { tag := 0, msg := fun _ => some "EOF" }

/-- A foreign error that implements `xerrors.Wrapper` and wraps `io.EOF`. -/
def thirdParty : error :=
  error.wrapper { tag := 2, msg := fun _ => some "third party: EOF" } EOF

/-- A foreign error that implements `xerrors.Wrapper` and whose `Unwrap()` returns nil. -/
def hollow : error :=
  error.wrapper { tag := 3, msg := fun _ => some "hollow" } error.nil

/-- The error `(*nilError)(nil)` of the tests (wraperr_test.go, lines 31-33 and 50): a
nil pointer of a type whose `Error()` has a value receiver, so that the call
through the nil pointer panics; the type has no `Unwrap`. -/
def nilErrorPtr : error :=
  error.leaf { tag := 4, msg := fun _ => none }

/-! ## Equality of interface values -/

/-- What the operator `==` reads that the model does not hold: whether two foreign
values have the same dynamic type, whether that type is comparable, whether two
values of one comparable type are equal, and whether two pointers to annotation
structs are the same pointer. -/
structure Runtime where
  sameType : Foreign → Foreign → Bool
  comparable : Foreign → Bool
  sameValue : Foreign → Foreign → Bool
  samePointer : error → error → Bool

/-- The operator `==` on two foreign values held in interfaces: false for different
dynamic types, a run-time panic (`none`) for one type that is not comparable. -/
def Runtime.foreignEq (R : Runtime) (f g : Foreign) : Option Bool :=
  if R.sameType f g then
    if R.comparable f then some (R.sameValue f g) else none
  else
    some false

/-- The operator `==` on two values of the interface type `error` (the Go
specification, comparison operators): two nil interfaces are equal; values of
different dynamic types are unequal; values of one dynamic type are compared,
which panics (`none`) when the type is not comparable.  `*withStack` and
`*withMessage` are pointer types, compared by address. -/
def goEq (R : Runtime) : error → error → Option Bool
  | error.nil, error.nil => some true
  | error.leaf f, error.leaf g => R.foreignEq f g
  | error.wrapper f _, error.wrapper g _ => R.foreignEq f g
  | error.withStack a fa, error.withStack b fb =>
    some (R.samePointer (error.withStack a fa) (error.withStack b fb))
  | error.withMessage a ma, error.withMessage b mb =>
    some (R.samePointer (error.withMessage a ma) (error.withMessage b mb))
  | _, _ => some false

/-! ## Verbose rendering -/

/-- An argument of `p.Print` (`interface{}`): an error or a string. -/
inductive Value where
  | err (e : error)
  | str (s : String)

/-- Modelled from the spec: a printer (section 6: a printer abstraction accepting
arbitrary value writes, and `frame.renderInto(printer)`), over printer states
`σ`.  `Print v` is the call `p.Print(v)`, `FrameFormat fr` is the call
`fr.Format(p)`. -/
structure Printer (σ : Type) where
  Print : Value → σ → σ
  FrameFormat : Frame → σ → σ

/-- The method `FormatError`: `some (p, next)` with the printer state after the call
and the error returned, `none` for a value without the method (nil, and the
foreign errors of the model).
`withStack.FormatError` (lines 32-36): `p.Print(e.err); e.frame.Format(p); return e.err`.
`withMessage.FormatError` (lines 111-114): `p.Print(w.msg); return w.err`. -/
def error.FormatError {σ : Type} (P : Printer σ) : error → σ → Option (σ × error)
  | error.withStack err frame, p =>
    let p := P.Print (Value.err err) p
    let p := P.FrameFormat frame p
    some (p, err)
  | error.withMessage err msg, p =>
    let p := P.Print (Value.str msg) p
    some (p, err)
  | _, _ => none

/-- Modelled from the spec: `xerrors.FormatError`, the render walk of section 4.6.  The
current error is asked for its verbose contribution; if it has one, the
contribution is invoked and the walk goes on with the error it returns, and
stops when that is nil; if it has none, its plain message is printed and the walk
stops.  `none`: the plain message panics. -/
def xerrors.FormatError {σ : Type} (P : Printer σ) (w : World) (err : error) (p : σ) :
    Option σ :=
  match _h : err.FormatError P p with
  | some (p1, next) =>
    if next.isNil then some p1 else xerrors.FormatError P w next p1
  | none => (err.Error w).map fun m => P.Print (Value.str m) p
termination_by sizeOf err
decreasing_by
  cases err <;> simp [error.FormatError] at _h
  all_goals
    obtain ⟨_, rfl⟩ := _h
    simp_wf
    omega

/-- One call received by a printer. -/
inductive PrinterCall where
  | Print (v : Value)
  | FrameFormat (fr : Frame)

/-- The printer that keeps the list of the calls it receives, the oldest first. -/
def callLog : Printer (List PrinterCall) where
  Print v log := log ++ [PrinterCall.Print v]
  FrameFormat fr log := log ++ [PrinterCall.FrameFormat fr]

/-- The annotations of the package on top of a value, the outermost first, down to
the first value that is not one. -/
def layers : error → List error
  | error.withStack err frame => error.withStack err frame :: layers err
  | error.withMessage err msg => error.withMessage err msg :: layers err
  | _ => []

/-- The verbose contribution of `e` on the printer state `p`: the state after
`e.FormatError(p)`, or `p` where `e` has no such method. -/
def contribution {σ : Type} (P : Printer σ) (p : σ) (e : error) : σ :=
  match e.FormatError P p with
  | some (p1, _) => p1
  | none => p

/-- The calls an annotation makes on its printer in `FormatError`. -/
def contributionCalls : error → List PrinterCall
  | error.withStack err frame =>
    [PrinterCall.Print (Value.err err), PrinterCall.FrameFormat frame]
  | error.withMessage _ msg => [PrinterCall.Print (Value.str msg)]
  | _ => []

/-- One piece of rendered output: a text, a frame location, or the mark the
formatting library writes in place of a value whose method panicked. -/
inductive Piece where
  | text (s : String)
  | frame (fr : Frame)
  | panicked
  deriving DecidableEq, Repr

/-- Modelled from the spec: what the chain-render protocol writes for `e` (sections
4.1, 4.2 and 4.6).  A `*withMessage` writes its text and the walk goes on with
its inner error; a `*withStack` prints its inner error (recursively, via the
chain-render protocol), then its frame, and the walk goes on with its inner
error; any other error writes its plain message.  `none`: a plain message
panics. -/
def render (w : World) : error → Option (List Piece)
  | error.nil => none
  | error.leaf f => (f.msg w).map fun m => [Piece.text m]
  | error.wrapper f _ => (f.msg w).map fun m => [Piece.text m]
  | error.withStack err frame =>
    if err.isNil then
      some [Piece.text "<nil>", Piece.frame frame]
    else
      (render w err).map fun rest =>
        (render w err).getD [Piece.panicked] ++ [Piece.frame frame] ++ rest
  | error.withMessage err msg =>
    if err.isNil then
      some [Piece.text msg]
    else
      (render w err).map fun rest => Piece.text msg :: rest

/-- Modelled from the spec: the printer that keeps the pieces written, the oldest
first.  A string is written as it is; an error value is written as the
chain-render protocol renders it (section 4.1: prints `inner` recursively, via
the chain-render protocol), a nil error as `<nil>`. -/
def recorder (w : World) : Printer (List Piece) where
  Print v out :=
    match v with
    | Value.str s => out ++ [Piece.text s]
    | Value.err e =>
      if e.isNil then out ++ [Piece.text "<nil>"]
      else out ++ (render w e).getD [Piece.panicked]
  FrameFormat fr out := out ++ [Piece.frame fr]

/-- Whether the value implements `xerrors.Formatter`, that is, has the method
`FormatError` (the verbose-contribution capability): the two annotation types
of the package have it (lines 32 and 111). -/
def error.isFormatter : error → Bool
  | error.withStack _ _ => true
  | error.withMessage _ _ => true
  | _ => false

end Wraperr

/-! # Theorems -/

namespace Wraperr

/-! ## Helper lemmas -/

theorem error.isNil_eq_false {err : error} (h : err ≠ error.nil) : err.isNil = false := by
  cases err <;> first | rfl | exact absurd rfl h

theorem error.isNil_eq_true {err : error} (h : err.isNil = true) : err = error.nil := by
  cases err <;> first | rfl | exact absurd h (by simp [error.isNil])

theorem WithStack_of_ne_nil (stack : List Loc) {err : error} (h : err ≠ error.nil) :
    WithStack stack err = error.withStack err (Caller (WithStack.site :: stack) 1) := by
  simp [WithStack, error.isNil_eq_false h]

theorem Wrap_of_ne_nil (stack : List Loc) {err : error} (msg : String) (h : err ≠ error.nil) :
    Wrap stack err msg
      = error.withStack (error.withMessage err msg) (Caller (Wrap.site :: stack) 1) := by
  simp [Wrap, error.isNil_eq_false h]

theorem Wrapf_of_ne_nil (sprintf : FormatFunc) (stack : List Loc) {err : error} (format : String)
    (args : List Arg) (h : err ≠ error.nil) :
    Wrapf sprintf stack err format args
      = error.withStack (error.withMessage err (sprintf format args))
          (Caller (Wrapf.site :: stack) 1) := by
  simp [Wrapf, error.isNil_eq_false h]

theorem WithMessage_of_ne_nil {err : error} (message : String) (h : err ≠ error.nil) :
    WithMessage err message = error.withMessage err message := by
  simp [WithMessage, error.isNil_eq_false h]

theorem WithMessagef_of_ne_nil (sprintf : FormatFunc) {err : error} (format : String)
    (args : List Arg) (h : err ≠ error.nil) :
    WithMessagef sprintf err format args = error.withMessage err (sprintf format args) := by
  simp [WithMessagef, error.isNil_eq_false h]

theorem error.Error_withMessage (err : error) (msg : String) (w : World) :
    (error.withMessage err msg).Error w = (err.Error w).map (fun s => msg ++ ": " ++ s) := by
  simp only [error.Error]
  cases err.Error w <;> rfl

theorem EOF_ne_nil : EOF ≠ error.nil := by
  unfold EOF
  exact fun h => error.noConfusion h

theorem ticking_ne_nil : ticking ≠ error.nil := by
  unfold ticking
  exact fun h => error.noConfusion h

/-! ## Nil propagation -/

/-- C1: annotating the nil error gives the nil error.  For every message, format,
argument list, call stack and formatter, `Wrap`, `Wrapf`, `WithMessage`,
`WithMessagef` and `WithStack` return nil on a nil error; the result does not
depend on what the formatter would return. -/
theorem nil_propagation (sprintf : FormatFunc) (stack : List Loc) (m f : String)
    (args : List Arg) :
    Wrap stack error.nil m = error.nil
    ∧ Wrapf sprintf stack error.nil f args = error.nil
    ∧ WithMessage error.nil m = error.nil
    ∧ WithMessagef sprintf error.nil f args = error.nil
    ∧ WithStack stack error.nil = error.nil :=
  ⟨rfl, rfl, rfl, rfl, rfl⟩

/-! ## Messages -/

theorem WithStack_Error_any (stack : List Loc) (err : error) (w : World) :
    (WithStack stack err).Error w = err.Error w := by
  cases err <;> rfl

theorem Wrap_Error_of_ne_nil (stack : List Loc) (err : error) (msg : String) (w : World)
    (h : err ≠ error.nil) :
    (Wrap stack err msg).Error w = (err.Error w).map (fun s => msg ++ ": " ++ s) := by
  rw [Wrap_of_ne_nil stack msg h]
  exact error.Error_withMessage err msg w

theorem ne_nil_of_Error {err : error} {w : World} {s : String} (h : err.Error w = some s) :
    err ≠ error.nil := by
  intro hnil
  rw [hnil] at h
  exact Option.noConfusion h

theorem Wrap_ne_nil (stack : List Loc) {err : error} (msg : String) (h : err ≠ error.nil) :
    Wrap stack err msg ≠ error.nil := by
  rw [Wrap_of_ne_nil stack msg h]
  exact fun h => error.noConfusion h

/-- C2: message composition of `Wrap`.  For a non-nil `err`, `Wrap(err, msg).Error()`
is `msg + ": " + err.Error()` (and panics where `err.Error()` panics); for a root
whose message is `"EOF"`, `Wrap(root, "read error").Error()` is `"read error: EOF"`
and `Wrap(Wrap(root, "a"), "b").Error()` is `"b: a: EOF"`. -/
theorem Wrap_Error (stack stack2 : List Loc) (err root : error) (msg : String) (w : World)
    (herr : err ≠ error.nil) (hroot : root.Error w = some "EOF") :
    (Wrap stack err msg).Error w = (err.Error w).map (fun s => msg ++ ": " ++ s)
    ∧ (Wrap stack root "read error").Error w = some "read error: EOF"
    ∧ (Wrap stack2 (Wrap stack root "a") "b").Error w = some "b: a: EOF" := by
  have hr : root ≠ error.nil := ne_nil_of_Error hroot
  refine ⟨Wrap_Error_of_ne_nil stack err msg w herr, ?_, ?_⟩
  · rw [Wrap_Error_of_ne_nil stack root _ w hr, hroot]
    rfl
  · rw [Wrap_Error_of_ne_nil stack2 _ _ w (Wrap_ne_nil stack "a" hr),
      Wrap_Error_of_ne_nil stack root _ w hr, hroot]
    rfl

/-- C2, at `io.EOF` wrapped at two call sites. -/
theorem Wrap_Error_witness :
    EOF ≠ error.nil ∧ EOF.Error 0 = some "EOF"
    ∧ ((Wrap [mainSite] EOF "read error").Error 0
          = (EOF.Error 0).map (fun s => "read error" ++ ": " ++ s)
      ∧ (Wrap [mainSite] EOF "read error").Error 0 = some "read error: EOF"
      ∧ (Wrap [readSite] (Wrap [mainSite] EOF "a") "b").Error 0 = some "b: a: EOF") :=
  ⟨EOF_ne_nil, rfl, Wrap_Error [mainSite] [readSite] EOF EOF "read error" 0 EOF_ne_nil rfl⟩

/-- C4: message composition of `WithMessage`.  For a non-nil `err`, the value built by
`WithMessage(err, text)` renders, at every moment `w` at which `Error()` is called,
as `text + ": "` followed by what `err.Error()` returns at that moment: the same
value called at two moments `w` and `w2` follows the inner message at each. -/
theorem WithMessage_Error (err : error) (text : String) (w w2 : World)
    (herr : err ≠ error.nil) :
    (WithMessage err text).Error w = (err.Error w).map (fun s => text ++ ": " ++ s)
    ∧ (WithMessage err text).Error w2 = (err.Error w2).map (fun s => text ++ ": " ++ s) := by
  rw [WithMessage_of_ne_nil text herr]
  exact ⟨error.Error_withMessage err text w, error.Error_withMessage err text w2⟩

/-- C4, at an error whose message changes between the two calls. -/
theorem WithMessage_Error_witness :
    ticking ≠ error.nil
    ∧ ((WithMessage ticking "job").Error 0
          = (ticking.Error 0).map (fun s => "job" ++ ": " ++ s)
      ∧ (WithMessage ticking "job").Error 1
          = (ticking.Error 1).map (fun s => "job" ++ ": " ++ s)) :=
  ⟨ticking_ne_nil, WithMessage_Error ticking "job" 0 1 ticking_ne_nil⟩

theorem WithStack_foldl_Error (sites : List (List Loc)) (err : error) (w : World) :
    (sites.foldl (fun e s => WithStack s e) err).Error w = err.Error w := by
  induction sites generalizing err with
  | nil => rfl
  | cons s rest ih =>
    rw [List.foldl_cons, ih, WithStack_Error_any]

/-- C5: `WithStack` never changes the short-form text.  For a non-nil `err`,
`WithStack(err).Error()` is `err.Error()`, and so is the text after `WithStack` has
been applied any number of times (once per call stack of `sites`), for instance
twice. -/
theorem WithStack_Error (stack stack2 : List Loc) (sites : List (List Loc)) (err : error)
    (w : World) (herr : err ≠ error.nil) :
    (WithStack stack err).Error w = err.Error w
    ∧ (sites.foldl (fun e s => WithStack s e) err).Error w = err.Error w
    ∧ (WithStack stack2 (WithStack stack err)).Error w = err.Error w := by
  have _ := herr
  refine ⟨WithStack_Error_any stack err w, WithStack_foldl_Error sites err w, ?_⟩
  rw [WithStack_Error_any, WithStack_Error_any]

/-- C5, at `io.EOF` annotated at two call sites. -/
theorem WithStack_Error_witness :
    EOF ≠ error.nil
    ∧ ((WithStack [mainSite] EOF).Error 0 = EOF.Error 0
      ∧ ([[mainSite], [readSite], [mainSite]].foldl (fun e s => WithStack s e) EOF).Error 0
          = EOF.Error 0
      ∧ (WithStack [readSite] (WithStack [mainSite] EOF)).Error 0 = EOF.Error 0) :=
  ⟨EOF_ne_nil,
    WithStack_Error [mainSite] [readSite] [[mainSite], [readSite], [mainSite]] EOF 0 EOF_ne_nil⟩

/-! ## Cause -/

theorem Cause_apply (sprintf : FormatFunc) (a : BuilderCall) (err : error) :
    Cause (a.apply sprintf err) = Cause err := by
  cases a <;> cases err <;> rfl

theorem Cause_annotate_eq (sprintf : FormatFunc) (root : error) (as : List BuilderCall) :
    Cause (annotate sprintf root as) = Cause root := by
  unfold annotate
  induction as generalizing root with
  | nil => rfl
  | cons a rest ih => rw [List.foldl_cons, ih, Cause_apply]

/-- C3: `Cause` resolves to the root.  For a root `leaf f` (a foreign error without
`Unwrap`) and every finite sequence `as` of calls of `WithStack`, `WithMessage`,
`WithMessagef`, `Wrap` and `Wrapf` applied to it, `Cause` of the result is the
root; in particular `Cause(root)`, `Cause(WithStack(root))`,
`Cause(WithMessage(root, "x"))` and `Cause(Wrap(Wrap(root, "a"), "b"))` are the
root, and `Cause(nil)` is nil. -/
theorem Cause_annotate (sprintf : FormatFunc) (f : Foreign) (as : List BuilderCall)
    (stack stack2 : List Loc) :
    Cause (annotate sprintf (error.leaf f) as) = error.leaf f
    ∧ Cause (error.leaf f) = error.leaf f
    ∧ Cause (WithStack stack (error.leaf f)) = error.leaf f
    ∧ Cause (WithMessage (error.leaf f) "x") = error.leaf f
    ∧ Cause (Wrap stack2 (Wrap stack (error.leaf f) "a") "b") = error.leaf f
    ∧ Cause error.nil = error.nil :=
  ⟨Cause_annotate_eq sprintf (error.leaf f) as, rfl, rfl, rfl, rfl, rfl⟩

/-! ## Formatted variants -/

/-- C6: the formatted variants.  For a non-nil `err`, `Wrapf(err, f, args...).Error()`
and `WithMessagef(err, f, args...).Error()` are `Sprintf(f, args...) + ": " +
err.Error()`; `Wrapf(err, f, args...)` has the message of `Wrap(err, Sprintf(f,
args...))` and unwraps to the same value (the two differ in the frame only), and
`WithMessagef(err, f, args...)` is `WithMessage(err, Sprintf(f, args...))`.  With a
formatter that renders `"x %d"` with `1` as `"x 1"` and a root whose message is
`"EOF"`, `Wrapf(root, "x %d", 1).Error()` is `"x 1: EOF"`. -/
theorem formatted_Error (sprintf : FormatFunc) (stack : List Loc) (err root : error)
    (f : String) (args : List Arg) (w : World)
    (herr : err ≠ error.nil)
    (hfmt : sprintf "x %d" [Arg.int 1] = "x 1")
    (hroot : root.Error w = some "EOF") :
    (Wrapf sprintf stack err f args).Error w
        = (err.Error w).map (fun s => sprintf f args ++ ": " ++ s)
    ∧ (WithMessagef sprintf err f args).Error w
        = (err.Error w).map (fun s => sprintf f args ++ ": " ++ s)
    ∧ (Wrapf sprintf stack err f args).Error w = (Wrap stack err (sprintf f args)).Error w
    ∧ (Wrapf sprintf stack err f args).Unwrap = (Wrap stack err (sprintf f args)).Unwrap
    ∧ (Wrapf sprintf stack err f args).Unwrap = some (error.withMessage err (sprintf f args))
    ∧ WithMessagef sprintf err f args = WithMessage err (sprintf f args)
    ∧ (Wrapf sprintf stack root "x %d" [Arg.int 1]).Error w = some "x 1: EOF" := by
  have hr : root ≠ error.nil := ne_nil_of_Error hroot
  have hW : ∀ (e : error) (g : String) (a : List Arg), e ≠ error.nil →
      (Wrapf sprintf stack e g a).Error w
        = (e.Error w).map (fun s => sprintf g a ++ ": " ++ s) := by
    intro e g a he
    rw [Wrapf_of_ne_nil sprintf stack g a he]
    exact error.Error_withMessage e (sprintf g a) w
  refine ⟨hW err f args herr, ?_, ?_, ?_, ?_, ?_, ?_⟩
  · rw [WithMessagef_of_ne_nil sprintf f args herr]
    exact error.Error_withMessage err (sprintf f args) w
  · rw [hW err f args herr, Wrap_Error_of_ne_nil stack err _ w herr]
  · rw [Wrapf_of_ne_nil sprintf stack f args herr, Wrap_of_ne_nil stack _ herr]
    rfl
  · rw [Wrapf_of_ne_nil sprintf stack f args herr]
    rfl
  · rw [WithMessagef_of_ne_nil sprintf f args herr, WithMessage_of_ne_nil _ herr]
  · rw [hW root _ _ hr, hfmt, hroot]
    rfl

/-- C6, at `io.EOF`, the format `"x %d"` and the argument `1`, with the model of
`fmt.Sprintf`. -/
theorem formatted_Error_witness :
    EOF ≠ error.nil ∧ Sprintf "x %d" [Arg.int 1] = "x 1" ∧ EOF.Error 0 = some "EOF"
    ∧ ((Wrapf Sprintf [mainSite] EOF "x %d" [Arg.int 1]).Error 0
          = (EOF.Error 0).map (fun s => Sprintf "x %d" [Arg.int 1] ++ ": " ++ s)
      ∧ (WithMessagef Sprintf EOF "x %d" [Arg.int 1]).Error 0
          = (EOF.Error 0).map (fun s => Sprintf "x %d" [Arg.int 1] ++ ": " ++ s)
      ∧ (Wrapf Sprintf [mainSite] EOF "x %d" [Arg.int 1]).Error 0
          = (Wrap [mainSite] EOF (Sprintf "x %d" [Arg.int 1])).Error 0
      ∧ (Wrapf Sprintf [mainSite] EOF "x %d" [Arg.int 1]).Unwrap
          = (Wrap [mainSite] EOF (Sprintf "x %d" [Arg.int 1])).Unwrap
      ∧ (Wrapf Sprintf [mainSite] EOF "x %d" [Arg.int 1]).Unwrap
          = some (error.withMessage EOF (Sprintf "x %d" [Arg.int 1]))
      ∧ WithMessagef Sprintf EOF "x %d" [Arg.int 1]
          = WithMessage EOF (Sprintf "x %d" [Arg.int 1])
      ∧ (Wrapf Sprintf [mainSite] EOF "x %d" [Arg.int 1]).Error 0 = some "x 1: EOF") :=
  ⟨EOF_ne_nil, by decide, rfl,
    formatted_Error Sprintf [mainSite] EOF EOF "x %d" [Arg.int 1] 0 EOF_ne_nil (by decide) rfl⟩

/-! ## Structure -/

/-- C7: the structure of `Wrap` and `Unwrap`.  For a non-nil `err`, `Wrap(err, msg)` is
a `*withStack` whose `Unwrap()` is the `*withMessage` with text `msg` whose
`Unwrap()` is `err`; `Unwrap` of `WithStack(err)` and of `WithMessage(err, msg)` is
`err`; and `Unwrap` of any `*withStack` or `*withMessage` is its field `err`. -/
theorem Wrap_structure (stack : List Loc) (err : error) (msg : String)
    (herr : err ≠ error.nil) :
    (∃ frame, Wrap stack err msg = error.withStack (error.withMessage err msg) frame)
    ∧ (Wrap stack err msg).Unwrap = some (error.withMessage err msg)
    ∧ (error.withMessage err msg).Unwrap = some err
    ∧ (WithStack stack err).Unwrap = some err
    ∧ (WithMessage err msg).Unwrap = some err
    ∧ (∀ (e : error) (frame : Frame), (error.withStack e frame).Unwrap = some e)
    ∧ (∀ (e : error) (m : String), (error.withMessage e m).Unwrap = some e) := by
  refine ⟨⟨_, Wrap_of_ne_nil stack msg herr⟩, ?_, rfl, ?_, ?_, fun _ _ => rfl, fun _ _ => rfl⟩
  · rw [Wrap_of_ne_nil stack msg herr]
    rfl
  · rw [WithStack_of_ne_nil stack herr]
    rfl
  · rw [WithMessage_of_ne_nil msg herr]
    rfl

/-- C7, at `io.EOF` wrapped in `main.main`. -/
theorem Wrap_structure_witness :
    EOF ≠ error.nil
    ∧ ((∃ frame, Wrap [mainSite] EOF "read error"
          = error.withStack (error.withMessage EOF "read error") frame)
      ∧ (Wrap [mainSite] EOF "read error").Unwrap = some (error.withMessage EOF "read error")
      ∧ (error.withMessage EOF "read error").Unwrap = some EOF
      ∧ (WithStack [mainSite] EOF).Unwrap = some EOF
      ∧ (WithMessage EOF "read error").Unwrap = some EOF
      ∧ (∀ (e : error) (frame : Frame), (error.withStack e frame).Unwrap = some e)
      ∧ (∀ (e : error) (m : String), (error.withMessage e m).Unwrap = some e)) :=
  ⟨EOF_ne_nil, Wrap_structure [mainSite] EOF "read error" EOF_ne_nil⟩

/-! ## No wrapper around nil -/

theorem apply_eq_nil_iff (sprintf : FormatFunc) (a : BuilderCall) (err : error) :
    a.apply sprintf err = error.nil ↔ err = error.nil := by
  cases a <;> cases err <;>
    simp [BuilderCall.apply, WithStack, Wrap, Wrapf, WithMessage, WithMessagef, error.isNil]

theorem apply_Unwrap_ne_nil (sprintf : FormatFunc) (a : BuilderCall) (err inner : error)
    (h : (a.apply sprintf err).Unwrap = some inner) : inner ≠ error.nil := by
  cases a <;> cases err <;>
    simp [BuilderCall.apply, WithStack, Wrap, Wrapf, WithMessage, WithMessagef, error.isNil,
      error.Unwrap] at h <;>
    (subst h; exact fun h => error.noConfusion h)

theorem apply_innerPresent (sprintf : FormatFunc) (a : BuilderCall) (err : error)
    (h : innerPresent err = true) : innerPresent (a.apply sprintf err) = true := by
  cases a <;> cases err <;>
    simp_all [BuilderCall.apply, WithStack, Wrap, Wrapf, WithMessage, WithMessagef, error.isNil,
      innerPresent]

theorem annotate_innerPresent (sprintf : FormatFunc) (root : error) (as : List BuilderCall)
    (h : innerPresent root = true) : innerPresent (annotate sprintf root as) = true := by
  unfold annotate
  induction as generalizing root with
  | nil => exact h
  | cons a rest ih =>
    rw [List.foldl_cons]
    exact ih _ (apply_innerPresent sprintf a root h)

/-- C8: no wrapper around nil.  Each of `WithStack`, `WithMessage`, `WithMessagef`,
`Wrap` and `Wrapf` returns nil exactly when its `err` argument is nil; the value
a builder returns, when it is an annotation, unwraps to a non-nil error, and so
does the `*withMessage` inside the value `Wrap` or `Wrapf` returns; and in a chain
built by any sequence of builder calls on a foreign root, every annotation holds a
non-nil `err`. -/
theorem builders_inner_present (sprintf : FormatFunc) (stack : List Loc) (err : error)
    (msg format : String) (args : List Arg) :
    (WithStack stack err = error.nil ↔ err = error.nil)
    ∧ (WithMessage err msg = error.nil ↔ err = error.nil)
    ∧ (WithMessagef sprintf err format args = error.nil ↔ err = error.nil)
    ∧ (Wrap stack err msg = error.nil ↔ err = error.nil)
    ∧ (Wrapf sprintf stack err format args = error.nil ↔ err = error.nil)
    ∧ (∀ (a : BuilderCall) (inner : error),
        (a.apply sprintf err).Unwrap = some inner → inner ≠ error.nil)
    ∧ (∀ inner inner2 : error, (Wrap stack err msg).Unwrap = some inner →
        inner.Unwrap = some inner2 → inner2 ≠ error.nil)
    ∧ (∀ inner inner2 : error, (Wrapf sprintf stack err format args).Unwrap = some inner →
        inner.Unwrap = some inner2 → inner2 ≠ error.nil)
    ∧ (∀ (f : Foreign) (as : List BuilderCall),
        innerPresent (annotate sprintf (error.leaf f) as) = true) := by
  refine ⟨apply_eq_nil_iff sprintf (BuilderCall.withStack stack) err,
    apply_eq_nil_iff sprintf (BuilderCall.withMessage msg) err,
    apply_eq_nil_iff sprintf (BuilderCall.withMessagef format args) err,
    apply_eq_nil_iff sprintf (BuilderCall.wrap stack msg) err,
    apply_eq_nil_iff sprintf (BuilderCall.wrapf stack format args) err,
    fun a inner h => apply_Unwrap_ne_nil sprintf a err inner h, ?_, ?_,
    fun f as => annotate_innerPresent sprintf (error.leaf f) as rfl⟩
  · intro inner inner2 h1 h2
    cases err <;> simp [Wrap, error.isNil, error.Unwrap] at h1 <;>
      (subst h1; simp [error.Unwrap] at h2; subst h2; exact fun h => error.noConfusion h)
  · intro inner inner2 h1 h2
    cases err <;> simp [Wrapf, error.isNil, error.Unwrap] at h1 <;>
      (subst h1; simp [error.Unwrap] at h2; subst h2; exact fun h => error.noConfusion h)

/-! ## The concise rendering of a chain -/

theorem apply_Error (sprintf : FormatFunc) (a : BuilderCall) (err : error) (w : World) :
    (a.apply sprintf err).Error w = (err.Error w).map (fun s => a.lead sprintf ++ s) := by
  by_cases h : err = error.nil
  · subst h
    cases a <;> rfl
  · cases a with
    | withStack stack =>
      show (WithStack stack err).Error w = _
      rw [WithStack_Error_any]
      cases err.Error w <;> simp [BuilderCall.lead, BuilderCall.text]
    | withMessage message =>
      show (WithMessage err message).Error w = _
      rw [WithMessage_of_ne_nil message h]
      exact error.Error_withMessage err message w
    | withMessagef format args =>
      show (WithMessagef sprintf err format args).Error w = _
      rw [WithMessagef_of_ne_nil sprintf format args h]
      exact error.Error_withMessage err (sprintf format args) w
    | wrap stack msg =>
      exact Wrap_Error_of_ne_nil stack err msg w h
    | wrapf stack format args =>
      show (Wrapf sprintf stack err format args).Error w = _
      rw [Wrapf_of_ne_nil sprintf stack format args h]
      exact error.Error_withMessage err (sprintf format args) w

theorem foldr_lead (ts : List String) (tail : String) :
    ts.foldr (fun t rest => t ++ ": " ++ rest) tail
      = ts.foldr (fun t rest => t ++ ": " ++ rest) "" ++ tail := by
  induction ts with
  | nil => simp
  | cons t rest ih =>
    simp only [List.foldr_cons]
    rw [ih]
    simp only [String.append_assoc]

theorem chainText_cons (sprintf : FormatFunc) (a : BuilderCall) (as : List BuilderCall) :
    chainText sprintf (a :: as) = chainText sprintf as ++ a.lead sprintf := by
  unfold chainText
  rw [List.reverse_cons, List.filterMap_append, List.foldr_append, foldr_lead]
  congr 1
  cases h : BuilderCall.text sprintf a <;> simp [BuilderCall.lead, h, List.filterMap]

theorem annotate_Error (sprintf : FormatFunc) (root : error) (as : List BuilderCall)
    (w : World) :
    (annotate sprintf root as).Error w
      = (root.Error w).map (fun s => chainText sprintf as ++ s) := by
  induction as generalizing root with
  | nil =>
    cases h : root.Error w <;> simp [annotate, chainText, h]
  | cons a rest ih =>
    have hstep : annotate sprintf root (a :: rest)
        = annotate sprintf (a.apply sprintf root) rest := rfl
    rw [hstep, ih, apply_Error, chainText_cons]
    cases root.Error w <;> simp [String.append_assoc]

theorem stripStack_Error (err : error) (w : World) :
    (stripStack err).Error w = err.Error w := by
  induction err with
  | nil => rfl
  | leaf f => rfl
  | wrapper f inner _ => rfl
  | withStack err frame ih => exact ih
  | withMessage err msg ih =>
    rw [stripStack, error.Error_withMessage, error.Error_withMessage, ih]

/-- C9: the concise rendering of a chain.  For every root and every sequence `as` of
builder calls layered on it, `Error()` of the outermost value is the texts of the
`*withMessage` values, the outermost first, each followed by `": "`, followed by
`root.Error()`; the `*withStack` values contribute nothing: the chain without
them has the same `Error()`, and `Wrap(err, m).Error()` is
`WithMessage(err, m).Error()`. -/
theorem chain_Error (sprintf : FormatFunc) (root err : error) (as : List BuilderCall)
    (stack : List Loc) (m : String) (w : World) :
    (annotate sprintf root as).Error w
        = (root.Error w).map (fun s => chainText sprintf as ++ s)
    ∧ (stripStack (annotate sprintf root as)).Error w = (annotate sprintf root as).Error w
    ∧ (Wrap stack err m).Error w = (WithMessage err m).Error w := by
  refine ⟨annotate_Error sprintf root as w, stripStack_Error _ w, ?_⟩
  cases err <;> rfl

/-! ## The frame -/

theorem Frame.location_Caller_one (own site : Loc) (rest : List Loc) :
    (Caller (own :: site :: rest) 1).location = some site := by
  simp [Caller, Frame.location]

/-- C10, as stated, fails: at `io.EOF` wrapped in `main.main`, `WithStack` asks the
frame-capture primitive to skip one level, and `Wrap` and `Wrapf` ask it to skip
one level too, not two. -/
theorem Wrap_skip_counterexample :
    ¬ (∃ k : Nat, (WithStack [mainSite] EOF).frame?.map Frame.skip = some k
        ∧ (Wrap [mainSite] EOF "read error").frame?.map Frame.skip = some (k + 1)
        ∧ (Wrapf Sprintf [mainSite] EOF "x %d" [Arg.int 1]).frame?.map Frame.skip
            = some (k + 1)) := by
  decide

/-- C10, amended: for a non-nil `err`, `WithStack`, `Wrap` and `Wrapf` each ask the
frame-capture primitive to skip exactly one level, counted from the builder
itself (each builds its `*withStack` in its own body), and the frame each records
designates its call site, the innermost entry `site` of its caller's stack. -/
theorem Wrap_frame (sprintf : FormatFunc) (site : Loc) (rest : List Loc) (err : error)
    (msg format : String) (args : List Arg) (herr : err ≠ error.nil) :
    (WithStack (site :: rest) err).frame?.map Frame.skip = some 1
    ∧ (Wrap (site :: rest) err msg).frame?.map Frame.skip = some 1
    ∧ (Wrapf sprintf (site :: rest) err format args).frame?.map Frame.skip = some 1
    ∧ (WithStack (site :: rest) err).frame?.bind Frame.location = some site
    ∧ (Wrap (site :: rest) err msg).frame?.bind Frame.location = some site
    ∧ (Wrapf sprintf (site :: rest) err format args).frame?.bind Frame.location
        = some site := by
  rw [WithStack_of_ne_nil _ herr, Wrap_of_ne_nil _ msg herr,
    Wrapf_of_ne_nil sprintf _ format args herr]
  simp [error.frame?, Caller, Frame.location]

/-- C10 amended, at `io.EOF` wrapped in `main.read`, called from `main.main`. -/
theorem Wrap_frame_witness :
    EOF ≠ error.nil
    ∧ ((WithStack (readSite :: [mainSite]) EOF).frame?.map Frame.skip = some 1
      ∧ (Wrap (readSite :: [mainSite]) EOF "read error").frame?.map Frame.skip = some 1
      ∧ (Wrapf Sprintf (readSite :: [mainSite]) EOF "x %d" [Arg.int 1]).frame?.map Frame.skip
          = some 1
      ∧ (WithStack (readSite :: [mainSite]) EOF).frame?.bind Frame.location = some readSite
      ∧ (Wrap (readSite :: [mainSite]) EOF "read error").frame?.bind Frame.location
          = some readSite
      ∧ (Wrapf Sprintf (readSite :: [mainSite]) EOF "x %d" [Arg.int 1]).frame?.bind
          Frame.location = some readSite) :=
  ⟨EOF_ne_nil,
    Wrap_frame Sprintf readSite [mainSite] EOF "read error" "x %d" [Arg.int 1] EOF_ne_nil⟩

/-! ## The loop of Cause -/

theorem unwrapChain_unfold (err : error) :
    unwrapChain err
      = err :: (match err.Unwrap with
                | none => []
                | some inner => unwrapChain inner) := by
  cases err <;> rfl

theorem unwrapChain_ne_nil (err : error) : unwrapChain err ≠ [] := by
  rw [unwrapChain_unfold]
  exact List.cons_ne_nil _ _

theorem Cause.loop_eq (fuel : Nat) (err : error)
    (h : (unwrapChain err).length ≤ fuel) : Cause.loop fuel err = some (Cause err) := by
  induction fuel generalizing err with
  | zero =>
    have := List.length_pos.mpr (unwrapChain_ne_nil err)
    omega
  | succ n ih =>
    cases err with
    | nil => rfl
    | leaf f => rfl
    | wrapper f inner =>
      simp only [unwrapChain, List.length_cons] at h
      simp only [Cause.loop, error.isNil, error.Unwrap, Cause]
      exact ih inner (by omega)
    | withStack err frame =>
      simp only [unwrapChain, List.length_cons] at h
      simp only [Cause.loop, error.isNil, error.Unwrap, Cause]
      exact ih err (by omega)
    | withMessage err msg =>
      simp only [unwrapChain, List.length_cons] at h
      simp only [Cause.loop, error.isNil, error.Unwrap, Cause]
      exact ih err (by omega)

theorem Cause.run_eq (fuel : Nat) (err : error)
    (h : (unwrapChain err).length ≤ fuel) : Cause.run fuel err = some (Cause err) := by
  unfold Cause.run
  cases err with
  | nil => rfl
  | leaf f => exact Cause.loop_eq fuel _ h
  | wrapper f inner => exact Cause.loop_eq fuel _ h
  | withStack err frame => exact Cause.loop_eq fuel _ h
  | withMessage err msg => exact Cause.loop_eq fuel _ h

theorem Cause_nil_or_leaf (err : error) :
    Cause err = error.nil ∨ ∃ f, Cause err = error.leaf f := by
  induction err with
  | nil => exact Or.inl rfl
  | leaf f => exact Or.inr ⟨f, rfl⟩
  | wrapper f inner ih => exact ih
  | withStack err frame ih => exact ih
  | withMessage err msg ih => exact ih

theorem getLast?_cons_of_ne_nil {α : Type} (a : α) {l : List α} (h : l ≠ []) :
    (a :: l).getLast? = l.getLast? := by
  obtain ⟨b, L, rfl⟩ := List.exists_cons_of_ne_nil h
  exact List.getLast?_cons_cons

theorem unwrapChain_getLast? (err : error) : (unwrapChain err).getLast? = some (Cause err) := by
  induction err with
  | nil => rfl
  | leaf f => rfl
  | wrapper f inner ih =>
    rw [unwrapChain, getLast?_cons_of_ne_nil _ (unwrapChain_ne_nil inner), ih]
    rfl
  | withStack err frame ih =>
    rw [unwrapChain, getLast?_cons_of_ne_nil _ (unwrapChain_ne_nil err), ih]
    rfl
  | withMessage err msg ih =>
    rw [unwrapChain, getLast?_cons_of_ne_nil _ (unwrapChain_ne_nil err), ih]
    rfl

/-- C17: the postcondition of `Cause`.  For every error (a value of the model has a
finite unwrap chain), the body of `Cause`, with its loop allowed as many
executions as the chain has elements, returns, and what it returns is `Cause err`;
the result is nil or an error that does not implement `xerrors.Wrapper`; and it
is the last element of the sequence `err, err.Unwrap(), ...`, which starts at
`err` and goes on with the unwrap result as long as there is one. -/
theorem Cause_postcondition (err : error) (fuel : Nat)
    (hfuel : (unwrapChain err).length ≤ fuel) :
    Cause.run fuel err = some (Cause err)
    ∧ (Cause err = error.nil ∨ (Cause err ≠ error.nil ∧ (Cause err).Unwrap = none))
    ∧ (unwrapChain err).getLast? = some (Cause err)
    ∧ unwrapChain err
        = err :: (match err.Unwrap with
                  | none => []
                  | some inner => unwrapChain inner) := by
  refine ⟨Cause.run_eq fuel err hfuel, ?_, unwrapChain_getLast? err, unwrapChain_unfold err⟩
  rcases Cause_nil_or_leaf err with h | ⟨f, h⟩
  · exact Or.inl h
  · refine Or.inr ?_
    rw [h]
    exact ⟨fun h => error.noConfusion h, rfl⟩

/-- C17, at a third-party wrapper of `io.EOF` wrapped in `main.main`: a chain of four. -/
theorem Cause_postcondition_witness :
    (unwrapChain (Wrap [mainSite] thirdParty "read error")).length ≤ 4
    ∧ (Cause.run 4 (Wrap [mainSite] thirdParty "read error")
          = some (Cause (Wrap [mainSite] thirdParty "read error"))
      ∧ (Cause (Wrap [mainSite] thirdParty "read error") = error.nil
          ∨ (Cause (Wrap [mainSite] thirdParty "read error") ≠ error.nil
            ∧ (Cause (Wrap [mainSite] thirdParty "read error")).Unwrap = none))
      ∧ (unwrapChain (Wrap [mainSite] thirdParty "read error")).getLast?
          = some (Cause (Wrap [mainSite] thirdParty "read error"))
      ∧ unwrapChain (Wrap [mainSite] thirdParty "read error")
          = Wrap [mainSite] thirdParty "read error"
              :: (match (Wrap [mainSite] thirdParty "read error").Unwrap with
                  | none => []
                  | some inner => unwrapChain inner)) :=
  ⟨by decide, Cause_postcondition (Wrap [mainSite] thirdParty "read error") 4 (by decide)⟩

theorem Cause_eq_nil_of_mem (err x : error) (hx : x ∈ unwrapChain err)
    (hnil : x.Unwrap = some error.nil) : Cause err = error.nil := by
  induction err with
  | nil =>
    simp only [unwrapChain, List.mem_singleton] at hx
    subst hx
    exact Option.noConfusion hnil
  | leaf f =>
    simp only [unwrapChain, List.mem_singleton] at hx
    subst hx
    exact Option.noConfusion hnil
  | wrapper f inner ih =>
    simp only [unwrapChain, List.mem_cons] at hx
    rcases hx with hx | hx
    · subst hx
      simp only [error.Unwrap, Option.some.injEq] at hnil
      subst hnil
      rfl
    · exact ih hx
  | withStack err frame ih =>
    simp only [unwrapChain, List.mem_cons] at hx
    rcases hx with hx | hx
    · subst hx
      simp only [error.Unwrap, Option.some.injEq] at hnil
      subst hnil
      rfl
    · exact ih hx
  | withMessage err msg ih =>
    simp only [unwrapChain, List.mem_cons] at hx
    rcases hx with hx | hx
    · subst hx
      simp only [error.Unwrap, Option.some.injEq] at hnil
      subst hnil
      rfl
    · exact ih hx

/-- C11: `Cause` with a nil unwrap result.  When the unwrap chain of `err` reaches an
error `x` that implements `xerrors.Wrapper` and whose `Unwrap()` returns nil,
`Cause(err)` is nil, and the body of `Cause`, with its loop allowed as many
executions as the chain has elements, returns nil: it leaves the loop and does
not panic. -/
theorem Cause_nil_unwrap (err x : error) (fuel : Nat)
    (hx : x ∈ unwrapChain err) (hnil : x.Unwrap = some error.nil)
    (hfuel : (unwrapChain err).length ≤ fuel) :
    Cause err = error.nil ∧ Cause.run fuel err = some error.nil := by
  have h := Cause_eq_nil_of_mem err x hx hnil
  refine ⟨h, ?_⟩
  rw [Cause.run_eq fuel err hfuel, h]

/-- C11, at a wrapper whose `Unwrap()` returns nil, wrapped in `main.main`. -/
theorem Cause_nil_unwrap_witness :
    hollow ∈ unwrapChain (Wrap [mainSite] hollow "read error")
    ∧ hollow.Unwrap = some error.nil
    ∧ (unwrapChain (Wrap [mainSite] hollow "read error")).length ≤ 4
    ∧ (Cause (Wrap [mainSite] hollow "read error") = error.nil
      ∧ Cause.run 4 (Wrap [mainSite] hollow "read error") = some error.nil) :=
  ⟨by simp [Wrap, hollow, error.isNil, unwrapChain], rfl, by decide,
    Cause_nil_unwrap (Wrap [mainSite] hollow "read error") hollow 4
      (by simp [Wrap, hollow, error.isNil, unwrapChain]) rfl (by decide)⟩

theorem Cause_idem (err : error) : Cause (Cause err) = Cause err := by
  rcases Cause_nil_or_leaf err with h | ⟨f, h⟩ <;> rw [h] <;> rfl

theorem thirdParty_ne_nil : thirdParty ≠ error.nil := by
  unfold thirdParty
  exact fun h => error.noConfusion h

/-- C18: `Cause` is invariant under annotation and idempotent.  For a non-nil `e`, also
one that implements `xerrors.Wrapper` itself, `Cause(WithStack(e))`,
`Cause(WithMessage(e, m))` and `Cause(Wrap(e, m))` are `Cause(e)`; and for every
`e2`, `Cause(Cause(e2))` is `Cause(e2)`. -/
theorem Cause_invariant (stack : List Loc) (e e2 : error) (m : String)
    (he : e ≠ error.nil) :
    Cause (WithStack stack e) = Cause e
    ∧ Cause (WithMessage e m) = Cause e
    ∧ Cause (Wrap stack e m) = Cause e
    ∧ Cause (Cause e2) = Cause e2 := by
  rw [WithStack_of_ne_nil stack he, WithMessage_of_ne_nil m he, Wrap_of_ne_nil stack m he]
  exact ⟨rfl, rfl, rfl, Cause_idem e2⟩

/-- C18, at a third-party wrapper of `io.EOF`. -/
theorem Cause_invariant_witness :
    thirdParty ≠ error.nil
    ∧ (Cause (WithStack [mainSite] thirdParty) = Cause thirdParty
      ∧ Cause (WithMessage thirdParty "read error") = Cause thirdParty
      ∧ Cause (Wrap [mainSite] thirdParty "read error") = Cause thirdParty
      ∧ Cause (Cause (Wrap [readSite] thirdParty "client error"))
          = Cause (Wrap [readSite] thirdParty "client error")) :=
  ⟨thirdParty_ne_nil,
    Cause_invariant [mainSite] thirdParty (Wrap [readSite] thirdParty "client error")
      "read error" thirdParty_ne_nil⟩

/-! ## Typed nil -/

/-- C12, as stated, fails for `Wrap`: at the typed nil `(*nilError)(nil)` wrapped in
`main.main`, what `Wrap` returns unwraps to the `*withMessage` it built, not to
the typed nil itself. -/
theorem typed_nil_Wrap_counterexample :
    ¬ (Wrap [mainSite] nilErrorPtr "whoops" ≠ error.nil
        ∧ (Wrap [mainSite] nilErrorPtr "whoops").Unwrap = some nilErrorPtr) := by
  rintro ⟨_, h⟩
  simp [Wrap, nilErrorPtr, error.isNil, error.Unwrap] at h

/-- C12, amended: a typed nil is present.  A nil pointer of a foreign error type
without `Unwrap` is a non-nil interface value `leaf f`.  `Cause` returns it, not
nil; `WithStack` and `WithMessage` return a non-nil annotation that unwraps to
it; `Wrap` returns a non-nil `*withStack` that unwraps to the `*withMessage`
that unwraps to it.  This holds in particular for `(*nilError)(nil)`. -/
theorem typed_nil_present (f : Foreign) (stack : List Loc) (msg : String) :
    Cause (error.leaf f) = error.leaf f
    ∧ Cause (error.leaf f) ≠ error.nil
    ∧ WithStack stack (error.leaf f) ≠ error.nil
    ∧ (WithStack stack (error.leaf f)).Unwrap = some (error.leaf f)
    ∧ WithMessage (error.leaf f) msg ≠ error.nil
    ∧ (WithMessage (error.leaf f) msg).Unwrap = some (error.leaf f)
    ∧ Wrap stack (error.leaf f) msg ≠ error.nil
    ∧ (Wrap stack (error.leaf f) msg).Unwrap = some (error.withMessage (error.leaf f) msg)
    ∧ (error.withMessage (error.leaf f) msg).Unwrap = some (error.leaf f)
    ∧ Cause nilErrorPtr = nilErrorPtr
    ∧ (WithStack stack nilErrorPtr).Unwrap = some nilErrorPtr
    ∧ (WithMessage nilErrorPtr msg).Unwrap = some nilErrorPtr
    ∧ (Wrap stack nilErrorPtr msg).Unwrap = some (error.withMessage nilErrorPtr msg) :=
  ⟨rfl, fun h => error.noConfusion h, fun h => error.noConfusion h, rfl,
    fun h => error.noConfusion h, rfl, fun h => error.noConfusion h, rfl, rfl,
    rfl, rfl, rfl, rfl⟩

/-! ## Equality -/

theorem goEq_isSome_of_not_foreign (R : Runtime) (a b : error)
    (ha : ∀ f, a ≠ error.leaf f) (ha2 : ∀ f inner, a ≠ error.wrapper f inner) :
    (goEq R a b).isSome = true := by
  cases a with
  | nil => cases b <;> rfl
  | leaf f => exact absurd rfl (ha f)
  | wrapper f inner => exact absurd rfl (ha2 f inner)
  | withStack e fr => cases b <;> rfl
  | withMessage e m => cases b <;> rfl

theorem apply_not_leaf (sprintf : FormatFunc) (a : BuilderCall) (err : error) (f : Foreign) :
    a.apply sprintf err ≠ error.leaf f := by
  cases a <;> cases err <;>
    simp [BuilderCall.apply, WithStack, Wrap, Wrapf, WithMessage, WithMessagef, error.isNil]

theorem apply_not_wrapper (sprintf : FormatFunc) (a : BuilderCall) (err : error) (f : Foreign)
    (inner : error) : a.apply sprintf err ≠ error.wrapper f inner := by
  cases a <;> cases err <;>
    simp [BuilderCall.apply, WithStack, Wrap, Wrapf, WithMessage, WithMessagef, error.isNil]

/-- C16: equality robustness.  For any two values returned by builder calls `a` and `b`
(`WithStack`, `WithMessage`, `WithMessagef`, `Wrap`, `Wrapf`, with any arguments)
on any errors `e1` and `e2`, nil included, the operator `==` returns a result
and does not panic, whatever the run time says of the wrapped values; and this
although `==` on two foreign errors of one type that is not comparable does
panic. -/
theorem equality_never_panics (R : Runtime) (sprintf : FormatFunc) (a b : BuilderCall)
    (e1 e2 : error) :
    (goEq R (a.apply sprintf e1) (b.apply sprintf e2)).isSome = true
    ∧ (goEq R (a.apply sprintf e1) error.nil).isSome = true
    ∧ (goEq R error.nil (b.apply sprintf e2)).isSome = true
    ∧ (∀ f g : Foreign, R.sameType f g = true → R.comparable f = false →
        goEq R (error.leaf f) (error.leaf g) = none
        ∧ (goEq R (a.apply sprintf (error.leaf f)) (b.apply sprintf (error.leaf g))).isSome
            = true) := by
  refine ⟨goEq_isSome_of_not_foreign R _ _ (apply_not_leaf sprintf a e1)
      (apply_not_wrapper sprintf a e1),
    goEq_isSome_of_not_foreign R _ _ (apply_not_leaf sprintf a e1)
      (apply_not_wrapper sprintf a e1),
    goEq_isSome_of_not_foreign R _ _ (fun f h => error.noConfusion h)
      (fun f inner h => error.noConfusion h), ?_⟩
  intro f g hs hc
  refine ⟨?_, goEq_isSome_of_not_foreign R _ _ (apply_not_leaf sprintf a _)
      (apply_not_wrapper sprintf a _)⟩
  simp [goEq, Runtime.foreignEq, hs, hc]

/-! ## Verbose contributions -/

/-- C13: the verbose contribution of a `*withStack`.  For every `*withStack` with inner
error `e` and frame `fr` and every printer, `FormatError(p)` leaves the printer
as the call `p.Print(e)` followed by the call `fr.Format(p)` leave it, and returns
`e`; the printer that logs its calls receives exactly these two calls, in this
order. -/
theorem withStack_FormatError {σ : Type} (P : Printer σ) (p : σ) (e : error) (fr : Frame)
    (log : List PrinterCall) :
    (error.withStack e fr).FormatError P p
        = some (P.FrameFormat fr (P.Print (Value.err e) p), e)
    ∧ (error.withStack e fr).FormatError callLog log
        = some (log ++ [PrinterCall.Print (Value.err e), PrinterCall.FrameFormat fr], e) := by
  refine ⟨rfl, ?_⟩
  simp [error.FormatError, callLog]

/-- C14: the verbose contribution of a `*withMessage`.  For every `*withMessage` with
inner error `e` and text `t` and every printer, `FormatError(p)` leaves the
printer as the single call `p.Print(t)` leaves it, and returns `e`; the printer
that logs its calls receives exactly this call, whose argument is the string
`t`, and the printer that keeps the pieces written receives the text `t` alone,
not the message of `e`. -/
theorem withMessage_FormatError {σ : Type} (P : Printer σ) (p : σ) (e : error) (t : String)
    (log : List PrinterCall) (w : World) (out : List Piece) :
    (error.withMessage e t).FormatError P p = some (P.Print (Value.str t) p, e)
    ∧ (error.withMessage e t).FormatError callLog log
        = some (log ++ [PrinterCall.Print (Value.str t)], e)
    ∧ (error.withMessage e t).FormatError (recorder w) out
        = some (out ++ [Piece.text t], e) :=
  ⟨rfl, rfl, rfl⟩

/-! ## The render walk -/

theorem FormatError_walk_withStack {σ : Type} (P : Printer σ) (w : World) (err : error)
    (frame : Frame) (p : σ) (h : err ≠ error.nil) :
    xerrors.FormatError P w (error.withStack err frame) p
      = xerrors.FormatError P w err (contribution P p (error.withStack err frame)) := by
  rw [xerrors.FormatError]
  simp [error.FormatError, contribution, error.isNil_eq_false h]

theorem FormatError_walk_withMessage {σ : Type} (P : Printer σ) (w : World) (err : error)
    (msg : String) (p : σ) (h : err ≠ error.nil) :
    xerrors.FormatError P w (error.withMessage err msg) p
      = xerrors.FormatError P w err (contribution P p (error.withMessage err msg)) := by
  rw [xerrors.FormatError]
  simp [error.FormatError, contribution, error.isNil_eq_false h]

theorem FormatError_walk_leaf {σ : Type} (P : Printer σ) (w : World) (f : Foreign) (p : σ) :
    xerrors.FormatError P w (error.leaf f) p
      = (f.msg w).map fun m => P.Print (Value.str m) p := by
  rw [xerrors.FormatError]
  simp [error.FormatError, error.Error]

theorem ne_nil_of_unwrapChain {err : error} {f : Foreign} {l : List error}
    (h : unwrapChain err = l ++ [error.leaf f]) : err ≠ error.nil := by
  intro hn
  subst hn
  cases l with
  | nil => simp [unwrapChain] at h
  | cons x xs =>
    cases xs <;> simp [unwrapChain] at h

theorem FormatError_walk_layers {σ : Type} (P : Printer σ) (w : World) (f : Foreign)
    (m : String) (hm : f.msg w = some m) (err : error) (p : σ)
    (h : unwrapChain err = layers err ++ [error.leaf f]) :
    xerrors.FormatError P w err p
      = some (P.Print (Value.str m) ((layers err).foldl (contribution P) p)) := by
  induction err generalizing p with
  | nil => simp [unwrapChain, layers] at h
  | leaf g =>
    simp only [unwrapChain, layers, List.nil_append, List.cons.injEq, error.leaf.injEq,
      and_true] at h
    subst h
    rw [FormatError_walk_leaf, hm]
    rfl
  | wrapper g inner _ => simp [unwrapChain, layers] at h
  | withStack err frame ih =>
    simp only [unwrapChain, layers, List.cons_append, List.cons.injEq, true_and] at h
    rw [FormatError_walk_withStack P w err frame p (ne_nil_of_unwrapChain h), ih _ h]
    rfl
  | withMessage err msg ih =>
    simp only [unwrapChain, layers, List.cons_append, List.cons.injEq, true_and] at h
    rw [FormatError_walk_withMessage P w err msg p (ne_nil_of_unwrapChain h), ih _ h]
    rfl

theorem apply_layers (sprintf : FormatFunc) (a : BuilderCall) (f : Foreign) (err : error)
    (h : unwrapChain err = layers err ++ [error.leaf f]) :
    unwrapChain (a.apply sprintf err) = layers (a.apply sprintf err) ++ [error.leaf f] := by
  have hne := ne_nil_of_unwrapChain h
  cases a with
  | withStack stack =>
    show unwrapChain (WithStack stack err) = layers (WithStack stack err) ++ _
    rw [WithStack_of_ne_nil stack hne]
    simp [unwrapChain, layers, h]
  | withMessage message =>
    show unwrapChain (WithMessage err message) = layers (WithMessage err message) ++ _
    rw [WithMessage_of_ne_nil message hne]
    simp [unwrapChain, layers, h]
  | withMessagef format args =>
    show unwrapChain (WithMessagef sprintf err format args)
      = layers (WithMessagef sprintf err format args) ++ _
    rw [WithMessagef_of_ne_nil sprintf format args hne]
    simp [unwrapChain, layers, h]
  | wrap stack msg =>
    show unwrapChain (Wrap stack err msg) = layers (Wrap stack err msg) ++ _
    rw [Wrap_of_ne_nil stack msg hne]
    simp [unwrapChain, layers, h]
  | wrapf stack format args =>
    show unwrapChain (Wrapf sprintf stack err format args)
      = layers (Wrapf sprintf stack err format args) ++ _
    rw [Wrapf_of_ne_nil sprintf stack format args hne]
    simp [unwrapChain, layers, h]

theorem annotate_layers (sprintf : FormatFunc) (f : Foreign) (as : List BuilderCall)
    (err : error) (h : unwrapChain err = layers err ++ [error.leaf f]) :
    unwrapChain (annotate sprintf err as)
      = layers (annotate sprintf err as) ++ [error.leaf f] := by
  unfold annotate
  induction as generalizing err with
  | nil => exact h
  | cons a rest ih =>
    rw [List.foldl_cons]
    exact ih _ (apply_layers sprintf a f err h)

theorem callLog_foldl (l : List error) (log : List PrinterCall) :
    l.foldl (contribution callLog) log = log ++ (l.map contributionCalls).flatten := by
  induction l generalizing log with
  | nil => simp
  | cons e rest ih =>
    rw [List.foldl_cons, ih]
    cases e <;> simp [contribution, error.FormatError, callLog, contributionCalls]

theorem recorder_walk_Wrap_EOF :
    xerrors.FormatError (recorder 0) 0 (Wrap [mainSite] EOF "read error") []
      = some [Piece.text "read error", Piece.text "EOF",
          Piece.frame (Caller (Wrap.site :: [mainSite]) 1),
          Piece.text "read error", Piece.text "EOF"] := by
  rw [FormatError_walk_layers (recorder 0) 0 EOF.foreign "EOF" rfl
    (Wrap [mainSite] EOF "read error") [] rfl]
  rfl

/-- C15, as stated, fails: at `io.EOF` wrapped with `"read error"` in `main.main`, the
render walk writes the text `"read error"` twice, once when the `*withStack`
prints its inner error and once as the contribution of the `*withMessage`. -/
theorem verbose_walk_counterexample :
    ¬ (∃ out : List Piece,
        xerrors.FormatError (recorder 0) 0 (Wrap [mainSite] EOF "read error") [] = some out
        ∧ out.count (Piece.text "read error") = 1) := by
  rintro ⟨out, hout, hcount⟩
  rw [recorder_walk_Wrap_EOF] at hout
  cases hout
  revert hcount
  decide

theorem unwrapChain_head (err : error) : ∃ tail, unwrapChain err = err :: tail :=
  ⟨_, unwrapChain_unfold err⟩

theorem layers_of_not_isFormatter {root : error} (h : root.isFormatter = false) :
    layers root = [] := by
  cases root <;> first | rfl | simp [error.isFormatter] at h

theorem FormatError_walk_root {σ : Type} (P : Printer σ) (w : World) (root : error) (p : σ)
    (h : root.isFormatter = false) :
    xerrors.FormatError P w root p = (root.Error w).map fun m => P.Print (Value.str m) p := by
  rw [xerrors.FormatError]
  cases root <;> first | rfl | simp [error.isFormatter] at h

theorem ne_nil_of_unwrapChain_root {err root : error} (hroot : root ≠ error.nil)
    (h : unwrapChain err = layers err ++ unwrapChain root) : err ≠ error.nil := by
  intro hn
  subst hn
  obtain ⟨tail, ht⟩ := unwrapChain_head root
  rw [ht] at h
  simp only [unwrapChain, layers, List.nil_append, List.cons.injEq] at h
  exact hroot h.1.symm

theorem eq_root_of_unwrapChain {err root : error} (hl : layers err = [])
    (h : unwrapChain err = layers err ++ unwrapChain root) : err = root := by
  obtain ⟨tail, ht⟩ := unwrapChain_head root
  obtain ⟨tail2, ht2⟩ := unwrapChain_head err
  rw [hl, ht, ht2] at h
  simp only [List.nil_append, List.cons.injEq] at h
  exact h.1

theorem FormatError_walk_over_root {σ : Type} (P : Printer σ) (w : World) (root : error)
    (hroot : root ≠ error.nil) (hfmt : root.isFormatter = false) (err : error) (p : σ)
    (h : unwrapChain err = layers err ++ unwrapChain root) :
    xerrors.FormatError P w err p
      = (root.Error w).map fun m =>
          P.Print (Value.str m) ((layers err).foldl (contribution P) p) := by
  induction err generalizing p with
  | nil => exact absurd rfl (ne_nil_of_unwrapChain_root hroot h)
  | leaf g =>
    have he : error.leaf g = root := @eq_root_of_unwrapChain (error.leaf g) root rfl h
    subst he
    exact FormatError_walk_root P w _ p hfmt
  | wrapper g inner _ =>
    have he : error.wrapper g inner = root :=
      @eq_root_of_unwrapChain (error.wrapper g inner) root rfl h
    subst he
    exact FormatError_walk_root P w _ p hfmt
  | withStack err frame ih =>
    simp only [unwrapChain, layers, List.cons_append, List.cons.injEq, true_and] at h
    rw [FormatError_walk_withStack P w err frame p (ne_nil_of_unwrapChain_root hroot h),
      ih _ h]
    rfl
  | withMessage err msg ih =>
    simp only [unwrapChain, layers, List.cons_append, List.cons.injEq, true_and] at h
    rw [FormatError_walk_withMessage P w err msg p (ne_nil_of_unwrapChain_root hroot h),
      ih _ h]
    rfl

theorem apply_layers_root (sprintf : FormatFunc) (a : BuilderCall) (root err : error)
    (hroot : root ≠ error.nil) (h : unwrapChain err = layers err ++ unwrapChain root) :
    unwrapChain (a.apply sprintf err)
      = layers (a.apply sprintf err) ++ unwrapChain root := by
  have hne := ne_nil_of_unwrapChain_root hroot h
  cases a with
  | withStack stack =>
    show unwrapChain (WithStack stack err) = layers (WithStack stack err) ++ _
    rw [WithStack_of_ne_nil stack hne]
    simp [unwrapChain, layers, h]
  | withMessage message =>
    show unwrapChain (WithMessage err message) = layers (WithMessage err message) ++ _
    rw [WithMessage_of_ne_nil message hne]
    simp [unwrapChain, layers, h]
  | withMessagef format args =>
    show unwrapChain (WithMessagef sprintf err format args)
      = layers (WithMessagef sprintf err format args) ++ _
    rw [WithMessagef_of_ne_nil sprintf format args hne]
    simp [unwrapChain, layers, h]
  | wrap stack msg =>
    show unwrapChain (Wrap stack err msg) = layers (Wrap stack err msg) ++ _
    rw [Wrap_of_ne_nil stack msg hne]
    simp [unwrapChain, layers, h]
  | wrapf stack format args =>
    show unwrapChain (Wrapf sprintf stack err format args)
      = layers (Wrapf sprintf stack err format args) ++ _
    rw [Wrapf_of_ne_nil sprintf stack format args hne]
    simp [unwrapChain, layers, h]

theorem annotate_layers_root (sprintf : FormatFunc) (root : error) (as : List BuilderCall)
    (hroot : root ≠ error.nil) (err : error)
    (h : unwrapChain err = layers err ++ unwrapChain root) :
    unwrapChain (annotate sprintf err as)
      = layers (annotate sprintf err as) ++ unwrapChain root := by
  unfold annotate
  induction as generalizing err with
  | nil => exact h
  | cons a rest ih =>
    rw [List.foldl_cons]
    exact ih _ (apply_layers_root sprintf a root err hroot h)

theorem annotate_nil (sprintf : FormatFunc) (as : List BuilderCall) :
    annotate sprintf error.nil as = error.nil := by
  unfold annotate
  induction as with
  | nil => rfl
  | cons a rest ih =>
    rw [List.foldl_cons]
    have : a.apply sprintf error.nil = error.nil := by cases a <;> rfl
    rw [this]
    exact ih

/-- C15, amended: the verbose walk over a chain.  For every chain built by builder
calls `as` over a root without the method `FormatError` (any foreign error of
the model, with or without `Unwrap`, a typed nil included), and every printer:
the chain is its annotations, the outermost first, followed by the root and
what the root unwraps to; the render walk leaves the printer as the
contributions of the annotations, invoked once each from the outermost to the
innermost, followed by the print of the plain message of the root, leave it, and
it panics where the plain message of the root panics; on the printer that logs
its calls, the calls are those of each annotation in chain order (a
`*withMessage` prints its text, a `*withStack` prints its inner error and then
formats its frame), then the print of the message of the root. -/
theorem verbose_walk {σ : Type} (P : Printer σ) (sprintf : FormatFunc) (root : error)
    (as : List BuilderCall) (w : World) (p : σ) (log : List PrinterCall)
    (hroot : root.isFormatter = false) :
    unwrapChain (annotate sprintf root as)
        = layers (annotate sprintf root as) ++ unwrapChain root
    ∧ xerrors.FormatError P w (annotate sprintf root as) p
        = (root.Error w).map (fun m =>
            P.Print (Value.str m)
              ((layers (annotate sprintf root as)).foldl (contribution P) p))
    ∧ xerrors.FormatError callLog w (annotate sprintf root as) log
        = (root.Error w).map (fun m =>
            log ++ ((layers (annotate sprintf root as)).map contributionCalls).flatten
              ++ [PrinterCall.Print (Value.str m)]) := by
  by_cases hn : root = error.nil
  · subst hn
    rw [annotate_nil]
    refine ⟨rfl, ?_, ?_⟩
    · rw [FormatError_walk_root P w error.nil p rfl]
      rfl
    · rw [FormatError_walk_root callLog w error.nil log rfl]
      rfl
  · have h0 : unwrapChain root = layers root ++ unwrapChain root := by
      rw [layers_of_not_isFormatter hroot, List.nil_append]
    have h := annotate_layers_root sprintf root as hn root h0
    refine ⟨h, FormatError_walk_over_root P w root hn hroot _ p h, ?_⟩
    rw [FormatError_walk_over_root callLog w root hn hroot _ log h, callLog_foldl]
    rfl

/-- C15 amended, at a third-party wrapper of `io.EOF` wrapped with `"read error"` in
`main.read` and annotated with a frame in `main.main`, on the printer that keeps
the pieces written. -/
theorem verbose_walk_witness :
    thirdParty.isFormatter = false
    ∧ (unwrapChain (annotate Sprintf thirdParty
          [BuilderCall.wrap [readSite] "read error", BuilderCall.withStack [mainSite]])
        = layers (annotate Sprintf thirdParty
            [BuilderCall.wrap [readSite] "read error", BuilderCall.withStack [mainSite]])
          ++ unwrapChain thirdParty
      ∧ xerrors.FormatError (recorder 0) 0
          (annotate Sprintf thirdParty
            [BuilderCall.wrap [readSite] "read error", BuilderCall.withStack [mainSite]]) []
        = (thirdParty.Error 0).map (fun m =>
            (recorder 0).Print (Value.str m)
              ((layers (annotate Sprintf thirdParty
                [BuilderCall.wrap [readSite] "read error",
                  BuilderCall.withStack [mainSite]])).foldl (contribution (recorder 0)) []))
      ∧ xerrors.FormatError callLog 0
          (annotate Sprintf thirdParty
            [BuilderCall.wrap [readSite] "read error", BuilderCall.withStack [mainSite]]) []
        = (thirdParty.Error 0).map (fun m =>
            [] ++ ((layers (annotate Sprintf thirdParty
                [BuilderCall.wrap [readSite] "read error",
                  BuilderCall.withStack [mainSite]])).map contributionCalls).flatten
              ++ [PrinterCall.Print (Value.str m)])) :=
  ⟨rfl, verbose_walk (recorder 0) Sprintf thirdParty
    [BuilderCall.wrap [readSite] "read error", BuilderCall.withStack [mainSite]] 0 [] [] rfl⟩

theorem recorder_foldl_render (w : World) (f : Foreign) (m : String) (hm : f.msg w = some m)
    (err : error) (h : unwrapChain err = layers err ++ [error.leaf f]) :
    ∃ pieces, render w err = some pieces
      ∧ ∀ out, (recorder w).Print (Value.str m) ((layers err).foldl (contribution (recorder w)) out)
          = out ++ pieces := by
  induction err with
  | nil => simp [unwrapChain, layers] at h
  | leaf g =>
    simp only [unwrapChain, layers, List.nil_append, List.cons.injEq, error.leaf.injEq,
      and_true] at h
    subst h
    exact ⟨[Piece.text m], by simp [render, hm], fun out => rfl⟩
  | wrapper g inner _ => simp [unwrapChain, layers] at h
  | withStack err frame ih =>
    simp only [unwrapChain, layers, List.cons_append, List.cons.injEq, true_and] at h
    obtain ⟨pieces, hr, hfold⟩ := ih h
    have hne := error.isNil_eq_false (ne_nil_of_unwrapChain h)
    refine ⟨pieces ++ [Piece.frame frame] ++ pieces, by simp [render, hne, hr], fun out => ?_⟩
    rw [layers, List.foldl_cons, hfold]
    simp [contribution, error.FormatError, recorder, hne, hr]
  | withMessage err msg ih =>
    simp only [unwrapChain, layers, List.cons_append, List.cons.injEq, true_and] at h
    obtain ⟨pieces, hr, hfold⟩ := ih h
    have hne := error.isNil_eq_false (ne_nil_of_unwrapChain h)
    refine ⟨Piece.text msg :: pieces, by simp [render, hne, hr], fun out => ?_⟩
    rw [layers, List.foldl_cons, hfold]
    simp [contribution, error.FormatError, recorder]

theorem recorder_walk_eq_render (sprintf : FormatFunc) (w : World) (f : Foreign) (m : String)
    (hm : f.msg w = some m) (as : List BuilderCall) :
    xerrors.FormatError (recorder w) w (annotate sprintf (error.leaf f) as) []
      = render w (annotate sprintf (error.leaf f) as) := by
  have h := annotate_layers sprintf f as (error.leaf f) rfl
  obtain ⟨pieces, hr, hfold⟩ := recorder_foldl_render w f m hm _ h
  rw [FormatError_walk_layers (recorder w) w f m hm _ [] h, hr, hfold]
  rfl

end Wraperr
